import Mathlib

/-!
Shallow embedding of the vibe-session engine of the diya backend
(Express + Prisma router in src/routers/vibe.js, schema in prisma).

Conventions of the embedding:
- Database ids, user ids and timestamps are Nat.
- Text columns whose content is opaque to the engine (song ids, song and
  artist names, session names) are encoded as Nat; the JavaScript
  truthiness test on such a value (absent or empty string) is encoded
  as the value 0, a present non-empty value as a positive Nat.
- Nullable columns are Option.
- Each route handler becomes a pure function from the database state
  (plus its request parameters and the current time) to an Except value:
  ok carries the new database state, error carries the 4xx/5xx response
  the handler sends.  acceptInvite is the one handler that can mutate
  the store and still answer an error (the capacity race marks the
  invitation expired and answers 400), so it returns the pair of the
  new state and an optional error instead.
- Prisma findUnique/findFirst become List.find?; updateMany/update
  become List.map guarded on the row key; create becomes an append.
-/

/-- Participant role column: the router writes the literal strings
admin and member. -/
inductive Role where
  | admin
  | member
deriving DecidableEq

/-- Queue mode column: the router only ever compares it against the
literal string host-only; every other value behaves like collaborative. -/
inductive QMode where
  | collaborative
  | hostOnly
deriving DecidableEq

/-- Invitation status column: the literal strings pending, accepted,
declined, expired. -/
inductive InvStatus where
  | pending
  | accepted
  | declined
  | expired
deriving DecidableEq

/-- The error responses the vibe router can send, one constructor per
distinct (status, message) pair appearing in the source. -/
inductive Err where
  | nameRequired            -- 400 vibe session name is required
  | sessionNotFound         -- 404 session not found
  | sessionNotFoundOrInactive -- 404 session not found or inactive
  | sessionIsFull           -- 400 vibe session is full
  | alreadyJoined           -- 400 already joined this session
  | notMember               -- 400 not a member of this session (leave)
  | accessDenied            -- 403 access denied (settings update)
  | songDetailsRequired     -- 400 song details are required
  | notMemberForbidden      -- 403 not a member of this session (queue add)
  | hostOnlyQueue           -- 403 only host can add songs to queue
  | noControlPermission     -- 403 no permission to control playback
  | permissionDenied        -- 403 permission denied (next, queue remove)
  | queueItemNotFound       -- 404 queue item not found
  | onlyCreatorCanEnd       -- 403 only creator can end the session
  | notEnoughSpots          -- 400 only N spots available
  | invitationNotFound      -- 404 invitation not found
  | alreadyProcessed        -- 400 invitation already processed
  | sessionNowFull          -- 400 session is now full
  | serverError             -- 500 generic failure
deriving DecidableEq

/-- Row of the vibe_sessions table. -/
structure Session where
  id : Nat
  name : Nat
  description : Option Nat
  isPublic : Bool
  maxMembers : Nat
  creatorId : Nat
  currentSongId : Option Nat
  currentSongName : Option Nat
  currentArtistName : Option Nat
  currentImageUrl : Option Nat
  isPlaying : Bool
  currentPosition : Nat
  lastUpdated : Nat
  allowGuestControl : Bool
  queueMode : QMode
  startedAt : Nat
  endedAt : Option Nat
  isActive : Bool
deriving DecidableEq

/-- Row of the vibe_participants table (the surrogate id column is not
consulted by any handler, so the row is identified by its composite
unique key (sessionId, userId)). -/
structure Participant where
  sessionId : Nat
  userId : Nat
  role : Role
  joinedAt : Nat
  leftAt : Option Nat
  isActive : Bool
deriving DecidableEq

/-- Row of the vibe_queue table. -/
structure QueueItem where
  id : Nat
  sessionId : Nat
  songId : Nat
  songName : Nat
  artistName : Nat
  imageUrl : Option Nat
  duration : Option Nat
  addedBy : Nat
  position : Nat
  played : Bool
  addedAt : Nat
deriving DecidableEq

/-- Row of the vibe_invitations table. -/
structure Invitation where
  id : Nat
  sessionId : Nat
  invitedUserId : Nat
  invitedBy : Nat
  status : InvStatus
  createdAt : Nat
deriving DecidableEq

/-- The store: the four vibe tables. -/
structure DB where
  sessions : List Session
  participants : List Participant
  queue : List QueueItem
  invitations : List Invitation
deriving DecidableEq

/-- prisma.vibeSession.findUnique on the id key. -/
def findSession (db : DB) (sid : Nat) : Option Session :=
  db.sessions.find? (fun s => s.id == sid)

/-- prisma.vibeParticipant.findUnique on the composite key
sessionId_userId. -/
def findParticipant (db : DB) (sid uid : Nat) : Option Participant :=
  db.participants.find? (fun p => p.sessionId == sid && p.userId == uid)

/-- The include participants where userId, isActive true used by the
playback handlers, followed by taking element 0. -/
def activeParticipant (db : DB) (sid uid : Nat) : Option Participant :=
  db.participants.find? (fun p => p.sessionId == sid && p.userId == uid && p.isActive)

/-- The check whether the participant row of (session, user) exists and
is active, as the enqueue and invite handlers compute it from
findParticipant. -/
def participantActive (db : DB) (sid uid : Nat) : Bool :=
  match findParticipant db sid uid with
  | some p => p.isActive
  | none => false

/-- count of participants where isActive true, as used by the invite and
accept handlers. -/
def countActive (db : DB) (sid : Nat) : Nat :=
  db.participants.countP (fun p => p.sessionId == sid && p.isActive)

/-- count of all participant rows of the session, as used by the join
handler (its relation count carries no isActive filter). -/
def countAllRows (db : DB) (sid : Nat) : Nat :=
  db.participants.countP (fun p => p.sessionId == sid)

/-- Reactivation update of an existing participant row: isActive true,
joinedAt reset, leftAt cleared. -/
def reactivateParticipant (db : DB) (sid uid now : Nat) : DB :=
  { db with participants := db.participants.map (fun p =>
      if p.sessionId == sid && p.userId == uid then
        { p with isActive := true, joinedAt := now, leftAt := none }
      else p) }

/-- prisma.vibeParticipant.create. -/
def addParticipant (db : DB) (sid uid : Nat) (r : Role) (now : Nat) : DB :=
  { db with participants := db.participants ++
      [{ sessionId := sid, userId := uid, role := r,
         joinedAt := now, leftAt := none, isActive := true }] }

/-- POST / : create a vibe session.  The name-required check tests JS
truthiness of the trimmed name, encoded as name = 0. -/
def createSession (db : DB) (uid newId now : Nat) (name : Nat)
    (description : Option Nat) (isPublic : Bool) (maxMembers : Nat)
    (allowGuestControl : Bool) (queueMode : QMode) : Except Err DB :=
  if name = 0 then .error .nameRequired
  else .ok { db with sessions := db.sessions ++
    [{ id := newId, name := name, description := description,
       isPublic := isPublic, maxMembers := maxMembers, creatorId := uid,
       currentSongId := none, currentSongName := none,
       currentArtistName := none, currentImageUrl := none,
       isPlaying := false, currentPosition := 0, lastUpdated := now,
       allowGuestControl := allowGuestControl, queueMode := queueMode,
       startedAt := now, endedAt := none, isActive := true }] }

/-- POST /:id/join.  Note that the capacity check compares maxMembers
against the count of all participant rows: the relation count in this
handler has no isActive filter. -/
def joinSession (db : DB) (sid uid now : Nat) : Except Err DB :=
  match findSession db sid with
  | none => .error .sessionNotFoundOrInactive
  | some s =>
    if s.isActive = true then
      if s.maxMembers ≤ countAllRows db sid then .error .sessionIsFull
      else
        match findParticipant db sid uid with
        | some p =>
          if p.isActive = true then .error .alreadyJoined
          else .ok (reactivateParticipant db sid uid now)
        | none =>
          .ok (addParticipant db sid uid
            (if s.creatorId = uid then Role.admin else Role.member) now)
    else .error .sessionNotFoundOrInactive

/-- Body of PUT /:id : every field is optional; a field wrapped with a
JS truthiness test in the handler is applied only when non-zero (name,
maxMembers) while the fields tested against undefined are applied
whenever present. -/
structure SettingsUpdate where
  name : Option Nat
  description : Option (Option Nat)
  isPublic : Option Bool
  maxMembers : Option Nat
  allowGuestControl : Option Bool
  queueMode : Option QMode
deriving DecidableEq

/-- The spread-built data object of PUT /:id applied to one row. -/
def applySettings (s : Session) (u : SettingsUpdate) : Session :=
  { s with
    name := match u.name with
      | some n => if n = 0 then s.name else n
      | none => s.name
    description := u.description.getD s.description
    isPublic := u.isPublic.getD s.isPublic
    maxMembers := match u.maxMembers with
      | some m => if m = 0 then s.maxMembers else m
      | none => s.maxMembers
    allowGuestControl := u.allowGuestControl.getD s.allowGuestControl
    queueMode := u.queueMode.getD s.queueMode }

/-- PUT /:id : only the creator may update; no field is validated
against the current state (in particular maxMembers may drop below the
current number of active participants). -/
def updateSettings (db : DB) (sid uid : Nat) (u : SettingsUpdate) :
    Except Err DB :=
  match findSession db sid with
  | none => .error .accessDenied
  | some s =>
    if s.creatorId = uid then
      .ok { db with sessions := db.sessions.map (fun t =>
        if t.id == sid then applySettings t u else t) }
    else .error .accessDenied

/-- findFirst on vibe_queue for the session ordered by position
descending, then the JS expression position-or-zero: the largest
position among all queue rows of the session, played or not, zero when
the session has no queue rows. -/
def lastQueuePos (db : DB) (sid : Nat) : Nat :=
  (db.queue.filter (fun q => q.sessionId == sid)).foldl
    (fun acc q => max acc q.position) 0

/-- POST /:id/queue : membership check (creator or any participant row
that is active), then the host-only queue-mode check, then append at
lastQueuePos + 1. -/
def addToQueue (db : DB) (sid uid : Nat) (songId songName artistName : Nat)
    (imageUrl : Option Nat) (duration : Option Nat) (newId now : Nat) :
    Except Err (DB × QueueItem) :=
  if songId = 0 ∨ songName = 0 ∨ artistName = 0 then
    .error .songDetailsRequired
  else
    match findSession db sid with
    | none => .error .sessionNotFound
    | some s =>
      if s.creatorId ≠ uid ∧ participantActive db sid uid = false then
        .error .notMemberForbidden
      else if s.queueMode = QMode.hostOnly ∧ s.creatorId ≠ uid then
        .error .hostOnlyQueue
      else
        let item : QueueItem :=
          { id := newId, sessionId := sid, songId := songId,
            songName := songName, artistName := artistName,
            imageUrl := imageUrl, duration := duration, addedBy := uid,
            position := lastQueuePos db sid + 1, played := false,
            addedAt := now }
        .ok ({ db with queue := db.queue ++ [item] }, item)

/-- Whether the active participant row of the actor, if any, has the
admin role. -/
def isAdminOf (db : DB) (sid uid : Nat) : Bool :=
  match activeParticipant db sid uid with
  | some p => decide (p.role = Role.admin)
  | none => false

/-- The canControl expression shared verbatim by PUT /:id/current-song
and PUT /:id/playback: creator, or guest control enabled and any active
participant row, or an active participant row with the admin role. -/
def canControl (db : DB) (s : Session) (uid : Nat) : Bool :=
  decide (s.creatorId = uid) ||
  (s.allowGuestControl && (activeParticipant db s.id uid).isSome) ||
  isAdminOf db s.id uid

/-- The guard of POST /:id/next: the handler denies only when the actor
is not the creator, is not an active admin, and the session does not
allow guest control; so it proceeds for any authenticated actor once
allowGuestControl is set, participant or not. -/
def advanceGuard (db : DB) (s : Session) (uid : Nat) : Bool :=
  decide (s.creatorId = uid) || isAdminOf db s.id uid || s.allowGuestControl

/-- PUT /:id/current-song : overwrite the now-playing columns and stamp
lastUpdated, then mark every unplayed queue row of the session carrying
the same song id as played. -/
def setCurrent (db : DB) (sid uid : Nat) (songId songName artistName : Nat)
    (imageUrl : Option Nat) (isPlaying : Bool) (position now : Nat) :
    Except Err DB :=
  match findSession db sid with
  | none => .error .sessionNotFound
  | some s =>
    if canControl db s uid = true then
      let db1 := { db with sessions := db.sessions.map (fun t =>
        if t.id == sid then
          { t with
            currentSongId := some songId
            currentSongName := some songName
            currentArtistName := some artistName
            currentImageUrl := imageUrl
            isPlaying := isPlaying
            currentPosition := position
            lastUpdated := now }
        else t) }
      if songId = 0 then .ok db1
      else .ok { db1 with queue := db1.queue.map (fun q =>
        if q.sessionId == sid && q.songId == songId && !q.played then
          { q with played := true }
        else q) }
    else .error .noControlPermission

/-- PUT /:id/playback : partial update, only the provided fields change,
lastUpdated always stamped.  The handler never looks at isActive of the
session. -/
def setPlayback (db : DB) (sid uid : Nat) (isPlaying : Option Bool)
    (position : Option Nat) (now : Nat) : Except Err DB :=
  match findSession db sid with
  | none => .error .sessionNotFound
  | some s =>
    if canControl db s uid = true then
      .ok { db with sessions := db.sessions.map (fun t =>
        if t.id == sid then
          { t with
            isPlaying := isPlaying.getD t.isPlaying
            currentPosition := position.getD t.currentPosition
            lastUpdated := now }
        else t) }
    else .error .noControlPermission

/-- findFirst on vibe_queue where played false ordered by position
ascending: an unplayed row of the session with the least position. -/
def nextUnplayed (db : DB) (sid : Nat) : Option QueueItem :=
  (db.queue.filter (fun q => q.sessionId == sid && !q.played)).foldl
    (fun acc q =>
      match acc with
      | none => some q
      | some b => if q.position < b.position then some q else some b)
    none

/-- POST /:id/next : guard, then pull the least-position unplayed row;
if none, clear the now-playing columns and stop; else install the row
as the current song at position 0 playing, and mark the row played. -/
def playNext (db : DB) (sid uid now : Nat) :
    Except Err (DB × Option QueueItem) :=
  match findSession db sid with
  | none => .error .sessionNotFound
  | some s =>
    if advanceGuard db s uid = true then
      match nextUnplayed db sid with
      | none =>
        .ok ({ db with sessions := db.sessions.map (fun t =>
          if t.id == sid then
            { t with
              isPlaying := false
              currentSongId := none
              currentSongName := none
              currentArtistName := none
              currentImageUrl := none }
          else t) }, none)
      | some item =>
        .ok ({ db with
          sessions := db.sessions.map (fun t =>
            if t.id == sid then
              { t with
                currentSongId := some item.songId
                currentSongName := some item.songName
                currentArtistName := some item.artistName
                currentImageUrl := item.imageUrl
                isPlaying := true
                currentPosition := 0
                lastUpdated := now }
            else t),
          queue := db.queue.map (fun q =>
            if q.id == item.id then { q with played := true } else q) },
          some item)
    else .error .permissionDenied

/-- DELETE /:id/queue/:queueId : the queue row is fetched by its id
alone, and the permission check (creator of the session named in the
URL, or submitter of the row) never compares the row sessionId with the
URL session id. -/
def removeFromQueue (db : DB) (sid queueId uid : Nat) : Except Err DB :=
  match findSession db sid, db.queue.find? (fun q => q.id == queueId) with
  | some s, some q =>
    if s.creatorId = uid ∨ q.addedBy = uid then
      .ok { db with queue := db.queue.filter (fun r => !(r.id == queueId)) }
    else .error .permissionDenied
  | some _, none => .error .queueItemNotFound
  | none, _ => .error .queueItemNotFound

/-- POST /:id/end : creator only; marks the session inactive with an end
timestamp and deactivates every participant row of the session. -/
def endSession (db : DB) (sid uid now : Nat) : Except Err DB :=
  match findSession db sid with
  | none => .error .onlyCreatorCanEnd
  | some s =>
    if s.creatorId = uid then
      .ok { db with
        sessions := db.sessions.map (fun t =>
          if t.id == sid then
            { t with isActive := false, endedAt := some now }
          else t),
        participants := db.participants.map (fun p =>
          if p.sessionId == sid then
            { p with isActive := false, leftAt := some now }
          else p) }
    else .error .onlyCreatorCanEnd

/-- One target of POST /:id/invite: skip when the target already has an
active participant row, skip when a pending invitation already exists,
else create a pending invitation.  The accumulator carries the store,
the created invitations and the next fresh invitation id. -/
def inviteStep (sid inviter now : Nat) (acc : DB × List Invitation × Nat)
    (target : Nat) : DB × List Invitation × Nat :=
  let d := acc.1
  if participantActive d sid target = true then acc
  else if (d.invitations.find? (fun i => i.sessionId == sid &&
      i.invitedUserId == target &&
      decide (i.status = InvStatus.pending))).isSome then acc
  else
    let inv : Invitation :=
      { id := acc.2.2, sessionId := sid, invitedUserId := target,
        invitedBy := inviter, status := InvStatus.pending, createdAt := now }
    ({ d with invitations := d.invitations ++ [inv] },
     acc.2.1 ++ [inv], acc.2.2 + 1)

/-- POST /:id/invite : the handler checks that the session exists, is
active, and has enough spots (maxMembers minus the count of active
participants) for the whole batch; it performs no check at all on the
inviter.  The spots arithmetic is done over Int, as in JS. -/
def sendInvitations (db : DB) (sid inviter : Nat) (userIds : List Nat)
    (nextId now : Nat) : Except Err (DB × List Invitation) :=
  match findSession db sid with
  | none => .error .sessionNotFoundOrInactive
  | some s =>
    if s.isActive = true then
      if (s.maxMembers : Int) - (countActive db sid : Int) <
          (userIds.length : Int) then
        .error .notEnoughSpots
      else
        let r := userIds.foldl (inviteStep sid inviter now) (db, [], nextId)
        .ok (r.1, r.2.1)
    else .error .sessionNotFoundOrInactive

/-- prisma.vibeInvitation.update setting the status column. -/
def setInvStatus (db : DB) (invId : Nat) (st : InvStatus) : DB :=
  { db with invitations := db.invitations.map (fun i =>
      if i.id == invId then { i with status := st } else i) }

/-- POST /invitations/:id/accept.  The one handler that both mutates the
store and answers an error: when the session has become full it marks
the invitation expired and answers 400.  It returns the new store plus
the optional error response. -/
def acceptInvite (db : DB) (invId uid now : Nat) : DB × Option Err :=
  match db.invitations.find? (fun i => i.id == invId) with
  | none => (db, some .invitationNotFound)
  | some inv =>
    if inv.invitedUserId = uid then
      if inv.status = InvStatus.pending then
        match findSession db inv.sessionId with
        | none => (db, some .serverError)
        | some s =>
          if s.maxMembers ≤ countActive db inv.sessionId then
            (setInvStatus db invId InvStatus.expired, some .sessionNowFull)
          else
            match findParticipant db inv.sessionId uid with
            | some p =>
              if p.isActive = true then
                (setInvStatus db invId InvStatus.accepted, none)
              else
                (setInvStatus
                  (reactivateParticipant db inv.sessionId uid now)
                  invId InvStatus.accepted, none)
            | none =>
              (setInvStatus
                (addParticipant db inv.sessionId uid
                  (if s.creatorId = uid then Role.admin else Role.member) now)
                invId InvStatus.accepted, none)
      else (db, some .alreadyProcessed)
    else (db, some .invitationNotFound)

/-- POST /invitations/:id/decline : ownership check only; the status is
set to declined without ever being inspected. -/
def declineInvite (db : DB) (invId uid : Nat) : Except Err DB :=
  match db.invitations.find? (fun i => i.id == invId) with
  | none => .error .invitationNotFound
  | some inv =>
    if inv.invitedUserId = uid then
      .ok (setInvStatus db invId InvStatus.declined)
    else .error .invitationNotFound

/-- POST /:id/leave.  Marks the participant row inactive; it touches no
other table. -/
def leaveSession (db : DB) (sid uid now : Nat) : Except Err DB :=
  match findParticipant db sid uid with
  | none => .error .notMember
  | some p =>
    if p.isActive = true then
      .ok { db with participants := db.participants.map (fun q =>
        if q.sessionId == sid && q.userId == uid then
          { q with isActive := false, leftAt := some now }
        else q) }
    else .error .notMember

/-!
Specification-side definitions.  These are written from the words of the
specification (not from the source) and exist only to be compared with
the source-derived definitions above.
-/

/-- The capability can_control_playback as the specification words it:
creator, or an active participant with the admin role, or guest control
enabled and any active participant. -/
def canControlSpec (db : DB) (s : Session) (uid : Nat) : Bool :=
  decide (s.creatorId = uid) || isAdminOf db s.id uid ||
  (s.allowGuestControl && (activeParticipant db s.id uid).isSome)

/-- The enqueue position as the specification words it: one more than
the largest position among the unplayed queue rows of the session, the
largest taken as zero when no unplayed row exists. -/
def specNextPosition (db : DB) (sid : Nat) : Nat :=
  ((db.queue.filter (fun q => q.sessionId == sid && !q.played)).foldl
    (fun acc q => max acc q.position) 0) + 1

/-- The enqueue position the source actually assigns, stated
independently of addToQueue: one more than the largest position among
all queue rows of the session, played or not. -/
def amendedNextPosition (db : DB) (sid : Nat) : Nat :=
  lastQueuePos db sid + 1

/-!
Invariants and the reachability relation for the capacity claim.
-/

/-- The capacity invariant of the specification: no session ever has
more active participants than maxMembers. -/
def sessionCapacityInv (db : DB) : Prop :=
  ∀ s ∈ db.sessions, countActive db s.id ≤ s.maxMembers

/-- Primary-key uniqueness of vibe_sessions. -/
def uniqueSessions (db : DB) : Prop :=
  db.sessions.Pairwise (fun a b => a.id ≠ b.id)

/-- Composite-key uniqueness of vibe_participants, the unique index on
(sessionId, userId). -/
def uniqueParticipants (db : DB) : Prop :=
  db.participants.Pairwise
    (fun a b => a.sessionId ≠ b.sessionId ∨ a.userId ≠ b.userId)

/-- Well-formed store: key uniqueness plus the capacity invariant. -/
def WF (db : DB) : Prop :=
  uniqueSessions db ∧ uniqueParticipants db ∧ sessionCapacityInv db

/-- One state transition of the engine: a successful application of one
of the mutating operations of the claim list (create, join, leave, end,
settings update, invite, accept, decline).  The flag selects whether
the settings-update operation is part of the transition system.  The
create transition carries the freshness of the autoincrement id and the
foreign-key fact that no participant row names the fresh id. -/
inductive Step : Bool → DB → DB → Prop where
  | create {b : Bool} {db db' : DB} {uid newId now name : Nat}
      {descr : Option Nat} {pub : Bool} {cap : Nat} {guest : Bool}
      {qm : QMode}
      (hfresh : ∀ s ∈ db.sessions, s.id ≠ newId)
      (hfk : ∀ p ∈ db.participants, p.sessionId ≠ newId)
      (h : createSession db uid newId now name descr pub cap guest qm
        = .ok db') : Step b db db'
  | join {b : Bool} {db db' : DB} {sid uid now : Nat}
      (h : joinSession db sid uid now = .ok db') : Step b db db'
  | leave {b : Bool} {db db' : DB} {sid uid now : Nat}
      (h : leaveSession db sid uid now = .ok db') : Step b db db'
  | endS {b : Bool} {db db' : DB} {sid uid now : Nat}
      (h : endSession db sid uid now = .ok db') : Step b db db'
  | settings {db db' : DB} {sid uid : Nat} {u : SettingsUpdate}
      (h : updateSettings db sid uid u = .ok db') : Step true db db'
  | invite {b : Bool} {db db' : DB} {sid inviter nextId now : Nat}
      {userIds : List Nat} {created : List Invitation}
      (h : sendInvitations db sid inviter userIds nextId now
        = .ok (db', created)) : Step b db db'
  | accept {b : Bool} {db db' : DB} {invId uid now : Nat}
      (h : (acceptInvite db invId uid now).1 = db') : Step b db db'
  | decline {b : Bool} {db db' : DB} {invId uid : Nat}
      (h : declineInvite db invId uid = .ok db') : Step b db db'

/-!
Concrete stores used to instantiate the theorems.
-/

/-- A session row as createSession makes it at time zero, with the
given id, creator, capacity, guest-control flag and queue mode. -/
def mkSession (sid creator cap : Nat) (guest : Bool) (qm : QMode) :
    Session :=
  { id := sid
    name := 1
    description := none
    isPublic := true
    maxMembers := cap
    creatorId := creator
    currentSongId := none
    currentSongName := none
    currentArtistName := none
    currentImageUrl := none
    isPlaying := false
    currentPosition := 0
    lastUpdated := 0
    allowGuestControl := guest
    queueMode := qm
    startedAt := 0
    endedAt := none
    isActive := true }

/-- A participant row. -/
def mkPart (sid uid : Nat) (r : Role) (active : Bool) : Participant :=
  { sessionId := sid
    userId := uid
    role := r
    joinedAt := 0
    leftAt := none
    isActive := active }

/-- A queue row. -/
def mkItem (qid sid song pos adder : Nat) (pl : Bool) : QueueItem :=
  { id := qid
    sessionId := sid
    songId := song
    songName := song
    artistName := song
    imageUrl := none
    duration := none
    addedBy := adder
    position := pos
    played := pl
    addedAt := 0 }

/-- The empty store. -/
def emptyDB : DB :=
  { sessions := [], participants := [], queue := [], invitations := [] }

/-- Store for the playback-permission counterexample: one active session
with guest control enabled and no participant at all. -/
def exC1db : DB :=
  { sessions := [mkSession 1 1 2 true QMode.collaborative]
    participants := []
    queue := []
    invitations := [] }

/-- Store for the join-capacity counterexample: capacity one, one
inactive participant row, no active participant. -/
def exC4db : DB :=
  { sessions := [mkSession 1 1 1 false QMode.collaborative]
    participants := [mkPart 1 2 Role.member false]
    queue := []
    invitations := [] }

/-- Store for the invitation counterexample: a single invitation that
has already been accepted. -/
def exC6db : DB :=
  { sessions := [mkSession 1 1 5 false QMode.collaborative]
    participants := [mkPart 1 2 Role.member true]
    queue := []
    invitations := [{ id := 1, sessionId := 1, invitedUserId := 2,
                      invitedBy := 1, status := InvStatus.accepted,
                      createdAt := 0 }] }

/-- Store for the enqueue-position counterexample: the only queue row of
the session is already played and sits at position five. -/
def exC7db : DB :=
  { sessions := [mkSession 1 1 5 false QMode.collaborative]
    participants := []
    queue := [mkItem 1 1 9 5 1 true]
    invitations := [] }

/-- Store for the end-session counterexample: the creator is an active
admin participant of the session. -/
def exC8db : DB :=
  { sessions := [mkSession 1 1 5 false QMode.collaborative]
    participants := [mkPart 1 1 Role.admin true, mkPart 1 2 Role.member true]
    queue := []
    invitations := [] }

/-- Store for the cross-session queue-removal theorem: two sessions, a
queue row belonging to session two, removed through session one. -/
def exC9db : DB :=
  { sessions := [mkSession 1 1 5 false QMode.collaborative,
                 mkSession 2 2 5 false QMode.collaborative]
    participants := []
    queue := [mkItem 7 2 9 1 2 false]
    invitations := [] }

/-- Reached store of the capacity counterexample after the create. -/
def exC3db1 : DB :=
  { sessions := [mkSession 1 1 2 false QMode.collaborative]
    participants := []
    queue := []
    invitations := [] }

/-- Reached store after the creator joins. -/
def exC3db2 : DB :=
  { sessions := [mkSession 1 1 2 false QMode.collaborative]
    participants := [mkPart 1 1 Role.admin true]
    queue := []
    invitations := [] }

/-- Reached store after a second user joins. -/
def exC3db3 : DB :=
  { sessions := [mkSession 1 1 2 false QMode.collaborative]
    participants := [mkPart 1 1 Role.admin true, mkPart 1 2 Role.member true]
    queue := []
    invitations := [] }

/-- Reached store after the creator lowers maxMembers to one: two active
participants against capacity one. -/
def exC3db4 : DB :=
  { sessions := [mkSession 1 1 1 false QMode.collaborative]
    participants := [mkPart 1 1 Role.admin true, mkPart 1 2 Role.member true]
    queue := []
    invitations := [] }

/-- The settings-update body that lowers maxMembers to one. -/
def exC3upd : SettingsUpdate :=
  { name := none
    description := none
    isPublic := none
    maxMembers := some 1
    allowGuestControl := none
    queueMode := none }

/-!
General list lemmas used by the preservation proofs.
-/

/-- countP over one list is bounded by the sum over two predicates that
jointly cover it. -/
theorem countP_le_add_of {α : Type} (l : List α) (p q k : α → Bool)
    (h : ∀ x ∈ l, p x = true → q x = true ∨ k x = true) :
    l.countP p ≤ l.countP q + l.countP k := by
  induction l with
  | nil => simp
  | cons a t ih =>
    have ht : ∀ x ∈ t, p x = true → q x = true ∨ k x = true := by
      intro x hx
      exact h x (List.mem_cons_of_mem a hx)
    have ih' := ih ht
    simp only [List.countP_cons]
    by_cases hpa : p a = true
    · rcases h a (List.mem_cons_self a t) hpa with hq | hk2
      · simp [hpa, hq]; omega
      · simp [hpa, hk2]; omega
    · simp [hpa]
      by_cases hqa : q a = true <;> by_cases hka : k a = true <;>
        simp [hqa, hka] <;> omega

/-- Mapping cannot raise a countP when the image satisfies the predicate
only if the source did. -/
theorem countP_map_le_of {α : Type} (l : List α) (f : α → α) (p : α → Bool)
    (h : ∀ x ∈ l, p (f x) = true → p x = true) :
    (l.map f).countP p ≤ l.countP p := by
  rw [List.countP_map]
  exact List.countP_mono_left h

/-- Mapping preserves a countP when it preserves the predicate
pointwise. -/
theorem countP_map_eq_of {α : Type} (l : List α) (f : α → α) (p : α → Bool)
    (h : ∀ x ∈ l, p (f x) = p x) :
    (l.map f).countP p = l.countP p := by
  rw [List.countP_map]
  induction l with
  | nil => rfl
  | cons a t ih =>
    have ht : ∀ x ∈ t, p (f x) = p x := by
      intro x hx
      exact h x (List.mem_cons_of_mem a hx)
    simp only [List.countP_cons, Function.comp_apply,
      h a (List.mem_cons_self a t), ih ht]

/-- Mapping raises a countP by at most the count of an auxiliary key
predicate when each raised element satisfies the key. -/
theorem countP_map_le_add {α : Type} (l : List α) (f : α → α) (p k : α → Bool)
    (h : ∀ x ∈ l, p (f x) = true → p x = true ∨ k x = true) :
    (l.map f).countP p ≤ l.countP p + l.countP k := by
  rw [List.countP_map]
  exact countP_le_add_of l (fun x => p (f x)) p k h

/-- A pairwise-separated list holds at most one element of any key
predicate that forces the separation to fail. -/
theorem countP_le_one_of_pairwise {α : Type} {r : α → α → Prop}
    {l : List α} (hp : l.Pairwise r) (k : α → Bool)
    (hk : ∀ a b, k a = true → k b = true → r a b → False) :
    l.countP k ≤ 1 := by
  induction l with
  | nil => simp
  | cons a t ih =>
    rcases List.pairwise_cons.mp hp with ⟨hhead, htail⟩
    by_cases hka : k a = true
    · have hz : t.countP k = 0 := by
        refine List.countP_eq_zero.mpr ?_
        intro x hx hkx
        exact hk a x hka hkx (hhead x hx)
      simp [List.countP_cons, hka, hz]
    · simp only [List.countP_cons]
      have : (if k a = true then 1 else 0) = 0 := by simp [hka]
      rw [this]
      simpa using ih htail

/-- Two members of a list that is pairwise separated by a key are equal
once their keys agree. -/
theorem mem_eq_of_pairwise_ne {α β : Type} {f : α → β} {l : List α}
    (hp : l.Pairwise (fun a b => f a ≠ f b)) {a b : α}
    (ha : a ∈ l) (hb : b ∈ l) (h : f a = f b) : a = b := by
  induction l with
  | nil => cases ha
  | cons c t ih =>
    rcases List.pairwise_cons.mp hp with ⟨hhead, htail⟩
    rcases List.mem_cons.mp ha with rfl | ha'
    · rcases List.mem_cons.mp hb with rfl | hb'
      · rfl
      · exact absurd h (hhead b hb')
    · rcases List.mem_cons.mp hb with hb2 | hb'
      · subst hb2
        exact absurd h.symm (hhead a ha')
      · exact ih htail ha' hb'

/-- find? commutes with a map that preserves the search predicate. -/
theorem find?_map_of_key {α : Type} (l : List α) (f : α → α) (p : α → Bool)
    (h : ∀ x, p (f x) = p x) :
    (l.map f).find? p = (l.find? p).map f := by
  induction l with
  | nil => rfl
  | cons a t ih =>
    cases hpa : p a with
    | true =>
      have : p (f a) = true := by rw [h a, hpa]
      simp [List.find?_cons_of_pos, hpa, this]
    | false =>
      have hfa : p (f a) = false := by rw [h a, hpa]
      simp only [List.map_cons]
      rw [List.find?_cons_of_neg _ (by simp [hfa]),
        List.find?_cons_of_neg _ (by simp [hpa])]
      exact ih

/-!
Claim theorems.
-/

/-- Claim C2 (confirmed): a successful leave marks the leaving user's
participant row inactive with a left timestamp, keeps every other
participant row, and leaves the sessions table (so the active flag and
the end timestamp of every session) as well as the queue and the
invitations untouched; the user may be the creator, no case
distinction exists. -/
theorem C2_leave_frame (db db' : DB) (sid uid now : Nat)
    (h : leaveSession db sid uid now = .ok db') :
    db'.sessions = db.sessions ∧
    db'.queue = db.queue ∧
    db'.invitations = db.invitations ∧
    (∀ p ∈ db'.participants, p.sessionId = sid → p.userId = uid →
      p.isActive = false ∧ p.leftAt = some now) ∧
    (∀ p ∈ db.participants, p.sessionId ≠ sid ∨ p.userId ≠ uid →
      p ∈ db'.participants) := by
  unfold leaveSession at h
  split at h
  · exact absurd h (by simp)
  next p hp =>
    split at h
    · simp only [Except.ok.injEq] at h
      subst h
      refine ⟨rfl, rfl, rfl, ?_, ?_⟩
      · intro q hq hqs hqu
        rcases List.mem_map.mp hq with ⟨r, hr, hrq⟩
        by_cases hcond : (r.sessionId == sid && r.userId == uid) = true
        · rw [if_pos hcond] at hrq
          subst hrq
          exact ⟨rfl, rfl⟩
        · rw [if_neg hcond] at hrq
          subst hrq
          exact absurd (by simp [hqs, hqu]) hcond
      · intro q hq hkey
        refine List.mem_map.mpr ⟨q, hq, ?_⟩
        have hcond : (q.sessionId == sid && q.userId == uid) = false := by
          rcases hkey with hk | hk <;> simp [hk]
        rw [hcond]
        simp
    · exact absurd h (by simp)

/-- Store after the member with user id two leaves the exC8db session. -/
def exC2db' : DB :=
  { sessions := [mkSession 1 1 5 false QMode.collaborative]
    participants := [mkPart 1 1 Role.admin true,
      { sessionId := 1
        userId := 2
        role := Role.member
        joinedAt := 0
        leftAt := some 9
        isActive := false }]
    queue := []
    invitations := [] }

/-- Witness instantiating C2 at a concrete store. -/
theorem C2_leave_frame_witness :
    exC2db'.sessions = exC8db.sessions ∧
    exC2db'.queue = exC8db.queue ∧
    exC2db'.invitations = exC8db.invitations ∧
    (∀ p ∈ exC2db'.participants, p.sessionId = 1 → p.userId = 2 →
      p.isActive = false ∧ p.leftAt = some 9) ∧
    (∀ p ∈ exC8db.participants, p.sessionId ≠ 1 ∨ p.userId ≠ 2 →
      p ∈ exC2db'.participants) :=
  C2_leave_frame exC8db exC2db' 1 2 9 rfl

/-- Claim C4 counterexample: in exC4db the session has capacity one and
zero active participants (its single participant row is inactive), yet
join answers Full: the check does not count active rows only. -/
theorem C4_counterexample :
    joinSession exC4db 1 3 7 = .error .sessionIsFull ∧
    countActive exC4db 1 = 0 ∧
    exC4db.sessions.map Session.maxMembers = [1] :=
  ⟨rfl, rfl, rfl⟩

/-- Claim C4 (corrected): for a present, active session, join answers
Full exactly when the count of all participant rows of the session,
active or not, reaches maxMembers; inactive rows therefore do count
against capacity. -/
theorem C4_join_capacity (db : DB) (sid uid now : Nat) (s : Session)
    (hs : findSession db sid = some s) (hact : s.isActive = true) :
    joinSession db sid uid now = .error .sessionIsFull ↔
      s.maxMembers ≤ countAllRows db sid := by
  unfold joinSession
  rw [hs]
  simp only []
  rw [if_pos hact]
  constructor
  · intro h
    by_cases hc : s.maxMembers ≤ countAllRows db sid
    · exact hc
    · rw [if_neg hc] at h
      split at h
      · split at h <;> simp at h
      · simp at h
  · intro h
    rw [if_pos h]

/-- Witness instantiating C4 at a concrete store: the session of exC4db
holds one participant row, so join by a third user answers Full. -/
theorem C4_join_capacity_witness :
    joinSession exC4db 1 3 7 = .error .sessionIsFull ↔
      (mkSession 1 1 1 false QMode.collaborative).maxMembers ≤
        countAllRows exC4db 1 :=
  C4_join_capacity exC4db 1 3 7 (mkSession 1 1 1 false QMode.collaborative)
    rfl rfl

/-- Store of exC6db after decline flips the processed invitation. -/
def exC6db' : DB :=
  { sessions := [mkSession 1 1 5 false QMode.collaborative]
    participants := [mkPart 1 2 Role.member true]
    queue := []
    invitations := [{ id := 1, sessionId := 1, invitedUserId := 2,
                      invitedBy := 1, status := InvStatus.declined,
                      createdAt := 0 }] }

/-- Claim C6 counterexample: the single invitation of exC6db has status
accepted, yet decline by the invited user succeeds and rewrites the
status to declined: a second mutation after the terminal one. -/
theorem C6_counterexample :
    exC6db.invitations.map Invitation.status = [InvStatus.accepted] ∧
    declineInvite exC6db 1 2 = .ok exC6db' ∧
    exC6db'.invitations.map Invitation.status = [InvStatus.declined] :=
  ⟨rfl, rfl, rfl⟩

/-- Claim C6 (corrected): accept refuses a non-pending invitation with
AlreadyProcessed and leaves the store unchanged, but decline checks
ownership only: it succeeds on an invitation of any status and sets the
status to declined, so an accepted or expired invitation can still be
mutated a second time by decline. -/
theorem C6_invitation_terminality (db : DB) (invId uid now : Nat)
    (inv : Invitation)
    (hf : db.invitations.find? (fun i => i.id == invId) = some inv)
    (hown : inv.invitedUserId = uid) :
    (inv.status ≠ InvStatus.pending →
      acceptInvite db invId uid now = (db, some Err.alreadyProcessed)) ∧
    declineInvite db invId uid = .ok (setInvStatus db invId InvStatus.declined) ∧
    (∀ i ∈ (setInvStatus db invId InvStatus.declined).invitations,
      i.id = invId → i.status = InvStatus.declined) := by
  refine ⟨?_, ?_, ?_⟩
  · intro hstat
    unfold acceptInvite
    rw [hf]
    simp only []
    rw [if_pos hown, if_neg hstat]
  · unfold declineInvite
    rw [hf]
    simp only []
    rw [if_pos hown]
  · intro i hi hid
    rcases List.mem_map.mp hi with ⟨j, hj, hji⟩
    by_cases hc : (j.id == invId) = true
    · rw [if_pos hc] at hji
      subst hji
      rfl
    · rw [if_neg hc] at hji
      subst hji
      exact absurd (by simp [hid]) hc

/-- The seed of a foldl over max never exceeds the result. -/
theorem foldl_max_init_le {α : Type} (l : List α) (f : α → Nat) (a : Nat) :
    a ≤ l.foldl (fun acc x => max acc (f x)) a := by
  induction l generalizing a with
  | nil => exact Nat.le_refl a
  | cons b t ih =>
    calc a ≤ max a (f b) := Nat.le_max_left a (f b)
    _ ≤ t.foldl (fun acc x => max acc (f x)) (max a (f b)) := ih (max a (f b))

/-- Every member of the list is bounded by a foldl over max. -/
theorem mem_le_foldl_max {α : Type} (l : List α) (f : α → Nat) {x : α}
    (hx : x ∈ l) (a : Nat) :
    f x ≤ l.foldl (fun acc y => max acc (f y)) a := by
  induction l generalizing a with
  | nil => cases hx
  | cons b t ih =>
    rcases List.mem_cons.mp hx with rfl | hx'
    · calc f x ≤ max a (f x) := Nat.le_max_right a (f x)
      _ ≤ t.foldl (fun acc y => max acc (f y)) (max a (f x)) :=
        foldl_max_init_le t f (max a (f x))
    · exact ih hx' (max a (f b))

/-- Claim C7 counterexample: in exC7db the session has no unplayed
queue row, so the claim predicts position one for the next enqueue, but
the only (played) row sits at position five and the source assigns
position six. -/
theorem C7_counterexample :
    specNextPosition exC7db 1 = 1 ∧
    ∃ db' item, addToQueue exC7db 1 1 9 9 9 none none 2 7 = .ok (db', item) ∧
      item.position = 6 :=
  ⟨rfl, _, _, rfl, rfl⟩

/-- Claim C7 (corrected): a successful enqueue appends its row at one
more than the largest position among all queue rows of the session,
played rows included (zero when the session has no rows at all); in
particular the new position strictly dominates the position of every
existing row of the session. -/
theorem C7_enqueue_position (db db' : DB) (sid uid : Nat)
    (songId songName artistName : Nat) (img dur : Option Nat)
    (newId now : Nat) (item : QueueItem)
    (h : addToQueue db sid uid songId songName artistName img dur newId now
      = .ok (db', item)) :
    item.position = amendedNextPosition db sid ∧
    (∀ q ∈ db.queue, q.sessionId = sid → q.position < item.position) ∧
    db'.queue = db.queue ++ [item] := by
  unfold addToQueue at h
  repeat' split at h
  all_goals first
    | (injection h with h2
       obtain ⟨hdb, hitem⟩ := Prod.mk.inj h2
       subst hitem
       refine ⟨rfl, ?_, ?_⟩
       · intro q hq hqs
         have hmem : q ∈ db.queue.filter (fun r => r.sessionId == sid) :=
           List.mem_filter.mpr ⟨hq, by simp [hqs]⟩
         have hle := mem_le_foldl_max
           (db.queue.filter (fun r => r.sessionId == sid))
           (fun r => r.position) hmem 0
         simp only [amendedNextPosition, lastQueuePos]
         simp only [lastQueuePos] at hle ⊢
         omega
       · rw [← hdb])
    | exact absurd h (by simp)

/-- Witness instantiating C7 at the exC7db store. -/
theorem C7_enqueue_position_witness :
    (mkItem 2 1 9 6 1 false).position = amendedNextPosition exC7db 1 ∧
    (∀ q ∈ exC7db.queue, q.sessionId = 1 →
      q.position < (mkItem 2 1 9 6 1 false).position) ∧
    ({ exC7db with queue := exC7db.queue ++ [mkItem 2 1 9 6 1 false] }).queue
      = exC7db.queue ++ [mkItem 2 1 9 6 1 false] :=
  C7_enqueue_position exC7db
    { exC7db with queue := exC7db.queue ++ [mkItem 2 1 9 6 1 false] }
    1 1 9 9 9 none none 2 0 (mkItem 2 1 9 6 1 false) rfl

/-- Claim C9 (confirmed): the queue-removal route fetches the queue row
by its id alone and never compares the row session with the session id
of the URL: with a session the actor may act for (creator or submitter)
named in the URL, a queue row belonging to a different session is
deleted. -/
theorem C9_cross_session_removal (db : DB) (sid qid uid : Nat)
    (s : Session) (q : QueueItem)
    (hs : findSession db sid = some s)
    (hq : db.queue.find? (fun r => r.id == qid) = some q)
    (hforeign : q.sessionId ≠ sid)
    (hperm : s.creatorId = uid ∨ q.addedBy = uid) :
    ∃ db', removeFromQueue db sid qid uid = .ok db' ∧
      q ∉ db'.queue ∧
      db'.sessions = db.sessions ∧
      db'.participants = db.participants ∧
      (∀ r ∈ db.queue, r.id ≠ qid → r ∈ db'.queue) := by
  unfold removeFromQueue
  rw [hs, hq]
  simp only []
  rw [if_pos hperm]
  refine ⟨_, rfl, ?_, rfl, rfl, ?_⟩
  · intro hmem
    have hqid : (q.id == qid) = true := by
      simpa using List.find?_some hq
    have := (List.mem_filter.mp hmem).2
    simp [hqid] at this
  · intro r hr hne
    exact List.mem_filter.mpr ⟨hr, by simp [hne]⟩

/-- Witness instantiating C9: through session one, its creator deletes
the queue row of session two. -/
theorem C9_cross_session_removal_witness :
    ∃ db', removeFromQueue exC9db 1 7 1 = .ok db' ∧
      mkItem 7 2 9 1 2 false ∉ db'.queue ∧
      db'.sessions = exC9db.sessions ∧
      db'.participants = exC9db.participants ∧
      (∀ r ∈ exC9db.queue, r.id ≠ 7 → r ∈ db'.queue) :=
  C9_cross_session_removal exC9db 1 7 1
    (mkSession 1 1 5 false QMode.collaborative) (mkItem 7 2 9 1 2 false)
    rfl rfl (by decide) (Or.inl rfl)

/-- The guard shared by the current-song and playback routes agrees
with the specification formula for can_control_playback. -/
theorem canControl_eq_spec (db : DB) (s : Session) (uid : Nat) :
    canControl db s uid = canControlSpec db s uid := by
  unfold canControl canControlSpec
  cases h1 : decide (s.creatorId = uid) <;>
    cases h2 : isAdminOf db s.id uid <;>
      cases h3 : s.allowGuestControl <;>
        cases h4 : (activeParticipant db s.id uid).isSome <;>
          simp [h1, h2, h3, h4]

/-- Claim C1 counterexample: in exC1db guest control is enabled, the
actor is neither the creator nor a participant of any kind, so the
specification formula denies playback control, yet the advance route
accepts the command. -/
theorem C1_counterexample :
    canControlSpec exC1db (mkSession 1 1 2 true QMode.collaborative) 2
      = false ∧
    activeParticipant exC1db 1 2 = none ∧
    (mkSession 1 1 2 true QMode.collaborative).creatorId ≠ 2 ∧
    (playNext exC1db 1 2 5).isOk = true :=
  ⟨rfl, rfl, by decide, rfl⟩

/-- Claim C1 (corrected): the current-song and playback routes deny
exactly when the specification formula for can_control_playback is
false, but the advance route denies exactly when the actor is not the
creator, not an active admin, and the session has guest control
disabled: once guest control is enabled, advance accepts any
authenticated actor, active participant or not. -/
theorem C1_playback_permission (db : DB) (sid uid now : Nat) (s : Session)
    (hs : findSession db sid = some s)
    (songId songName artistName : Nat) (img : Option Nat) (pl : Bool)
    (pos : Nat) (ip : Option Bool) (opos : Option Nat) :
    (setPlayback db sid uid ip opos now = .error Err.noControlPermission ↔
      canControlSpec db s uid = false) ∧
    (setCurrent db sid uid songId songName artistName img pl pos now
        = .error Err.noControlPermission ↔
      canControlSpec db s uid = false) ∧
    (playNext db sid uid now = .error Err.permissionDenied ↔
      ¬(s.creatorId = uid ∨ isAdminOf db s.id uid = true ∨
        s.allowGuestControl = true)) := by
  refine ⟨?_, ?_, ?_⟩
  · unfold setPlayback
    rw [hs]
    simp only []
    by_cases hc : canControl db s uid = true
    · rw [if_pos hc]
      rw [canControl_eq_spec] at hc
      simp [hc]
    · rw [if_neg hc]
      rw [canControl_eq_spec] at hc
      simp [Bool.not_eq_true] at hc
      simp [hc]
  · unfold setCurrent
    rw [hs]
    simp only []
    by_cases hc : canControl db s uid = true
    · rw [if_pos hc]
      rw [canControl_eq_spec] at hc
      by_cases hz : songId = 0
      · rw [if_pos hz]
        simp [hc]
      · rw [if_neg hz]
        simp [hc]
    · rw [if_neg hc]
      rw [canControl_eq_spec] at hc
      simp [Bool.not_eq_true] at hc
      simp [hc]
  · unfold playNext
    rw [hs]
    simp only []
    by_cases hg : advanceGuard db s uid = true
    · rw [if_pos hg]
      unfold advanceGuard at hg
      simp only [Bool.or_eq_true, decide_eq_true_eq] at hg
      constructor
      · intro h
        exfalso
        revert h
        cases nextUnplayed db sid <;> simp
      · intro h
        rw [or_assoc] at hg
        exact absurd hg h
    · rw [if_neg hg]
      unfold advanceGuard at hg
      simp only [Bool.or_eq_true, decide_eq_true_eq, not_or,
        Bool.not_eq_true] at hg
      constructor
      · intro _
        simp only [not_or]
        exact ⟨hg.1.1, by simp [hg.1.2], by simp [hg.2]⟩
      · intro _
        rfl

/-- Witness instantiating C1 at the exC1db store with the
non-participant actor. -/
theorem C1_playback_permission_witness :
    (setPlayback exC1db 1 2 none none 5 = .error Err.noControlPermission ↔
      canControlSpec exC1db (mkSession 1 1 2 true QMode.collaborative) 2
        = false) ∧
    (setCurrent exC1db 1 2 9 9 9 none true 0 5
        = .error Err.noControlPermission ↔
      canControlSpec exC1db (mkSession 1 1 2 true QMode.collaborative) 2
        = false) ∧
    (playNext exC1db 1 2 5 = .error Err.permissionDenied ↔
      ¬((mkSession 1 1 2 true QMode.collaborative).creatorId = 2 ∨
        isAdminOf exC1db (mkSession 1 1 2 true QMode.collaborative).id 2
          = true ∨
        (mkSession 1 1 2 true QMode.collaborative).allowGuestControl
          = true)) :=
  C1_playback_permission exC1db 1 2 5
    (mkSession 1 1 2 true QMode.collaborative) rfl 9 9 9 none true 0 none none

/-- The exC8db store after the creator ends the session. -/
def exC8dbEnded : DB :=
  { sessions := [{ mkSession 1 1 5 false QMode.collaborative with
      isActive := false, endedAt := some 9 }]
    participants := [{ mkPart 1 1 Role.admin true with
        isActive := false, leftAt := some 9 },
      { mkPart 1 2 Role.member true with
        isActive := false, leftAt := some 9 }]
    queue := []
    invitations := [] }

/-- Claim C8 counterexample: the creator is an active participant of
exC8db; after ending the session, the creator (a former participant)
issues setPlayback and the command succeeds instead of failing, and no
InvalidState answer exists anywhere in the router. -/
theorem C8_counterexample :
    endSession exC8db 1 1 9 = .ok exC8dbEnded ∧
    (∃ p ∈ exC8db.participants, p.userId = 1 ∧ p.isActive = true) ∧
    (setPlayback exC8dbEnded 1 1 (some true) none 11).isOk = true :=
  ⟨rfl, ⟨mkPart 1 1 Role.admin true, by simp [exC8db], by decide⟩, rfl⟩

/-- Claim C8 (corrected): after the creator ends the session every
participant row of the session is inactive, and a subsequent
setPlayback by a former non-creator participant fails with the
permission error (403, not an invalid-state error: the playback route
never inspects isActive), while a setPlayback by the creator still
succeeds on the ended session. -/
theorem C8_end_then_playback (db db' : DB) (sid c now : Nat) (s : Session)
    (hs : findSession db sid = some s)
    (h : endSession db sid c now = .ok db') :
    (∀ p ∈ db'.participants, p.sessionId = sid → p.isActive = false) ∧
    findSession db' sid
      = some { s with isActive := false, endedAt := some now } ∧
    (∀ u t ip pos, u ≠ s.creatorId →
      setPlayback db' sid u ip pos t = .error Err.noControlPermission) ∧
    (∀ t ip pos, (setPlayback db' sid s.creatorId ip pos t).isOk = true) := by
  unfold endSession at h
  rw [hs] at h
  simp only [] at h
  split at h
  swap
  · exact absurd h (by simp)
  simp only [Except.ok.injEq] at h
  have hsess : db'.sessions = db.sessions.map (fun t =>
      if t.id == sid then { t with isActive := false, endedAt := some now }
      else t) := by
    rw [← h]
  have hparts : db'.participants = db.participants.map (fun p =>
      if p.sessionId == sid then
        { p with isActive := false, leftAt := some now }
      else p) := by
    rw [← h]
  have hsid : (s.id == sid) = true := by
    simpa using List.find?_some hs
  have hfind : findSession db' sid
      = some { s with isActive := false, endedAt := some now } := by
    unfold findSession
    rw [hsess]
    rw [find?_map_of_key _ _ _ (fun x => by
      by_cases hx : (x.id == sid) = true
      · rw [if_pos hx]
      · rw [if_neg hx])]
    unfold findSession at hs
    rw [hs]
    simp only [Option.map_some']
    rw [if_pos hsid]
  have hnoact : ∀ u, activeParticipant db' sid u = none := by
    intro u
    unfold activeParticipant
    rw [hparts]
    refine List.find?_eq_none.mpr ?_
    intro x hx
    rcases List.mem_map.mp hx with ⟨y, hy, hyx⟩
    by_cases hc : (y.sessionId == sid) = true
    · rw [if_pos hc] at hyx
      subst hyx
      simp
    · rw [if_neg hc] at hyx
      subst hyx
      simp only [Bool.and_eq_true]
      intro hcon
      exact absurd hcon.1.1 (by simpa using hc)
  have hsid' : s.id = sid := by simpa using hsid
  have hid : ({ s with isActive := false, endedAt := some now } : Session).id
      = sid := hsid'
  have hcc : ∀ u, u ≠ s.creatorId →
      canControl db' { s with isActive := false, endedAt := some now } u
        = false := by
    intro u hu
    unfold canControl isAdminOf
    rw [hid, hnoact u]
    have hdec :
        decide (({ s with isActive := false, endedAt := some now } :
          Session).creatorId = u) = false :=
      decide_eq_false (fun e => hu e.symm)
    rw [hdec]
    simp
  refine ⟨?_, hfind, ?_, ?_⟩
  · intro p hp hps
    rw [hparts] at hp
    rcases List.mem_map.mp hp with ⟨q, hq, hqp⟩
    by_cases hc : (q.sessionId == sid) = true
    · rw [if_pos hc] at hqp
      subst hqp
      rfl
    · rw [if_neg hc] at hqp
      subst hqp
      exact absurd (by simp [hps]) hc
  · intro u t ip pos hu
    unfold setPlayback
    rw [hfind]
    simp only []
    rw [if_neg (by simp [hcc u hu])]
  · intro t ip pos
    unfold setPlayback
    rw [hfind]
    simp only []
    rw [if_pos (by
      unfold canControl
      simp)]
    rfl

/-- Witness instantiating C8 at the exC8db store. -/
theorem C8_end_then_playback_witness :
    (∀ p ∈ exC8dbEnded.participants, p.sessionId = 1 → p.isActive = false) ∧
    findSession exC8dbEnded 1 = some { mkSession 1 1 5 false
      QMode.collaborative with isActive := false, endedAt := some 9 } ∧
    (∀ u t ip pos, u ≠ (mkSession 1 1 5 false QMode.collaborative).creatorId →
      setPlayback exC8dbEnded 1 u ip pos t
        = .error Err.noControlPermission) ∧
    (∀ t ip pos, (setPlayback exC8dbEnded 1
      (mkSession 1 1 5 false QMode.collaborative).creatorId ip pos t).isOk
        = true) :=
  C8_end_then_playback exC8db exC8dbEnded 1 1 9
    (mkSession 1 1 5 false QMode.collaborative) rfl rfl

/-- Inversion of a successful enqueue: only the queue changes, by
appending the row the route builds. -/
theorem addToQueue_ok (db db' : DB) (sid uid : Nat)
    (songId songName artistName : Nat) (img dur : Option Nat)
    (newId now : Nat) (item : QueueItem)
    (h : addToQueue db sid uid songId songName artistName img dur newId now
      = .ok (db', item)) :
    db'.sessions = db.sessions ∧ db'.participants = db.participants ∧
    db'.invitations = db.invitations ∧
    db'.queue = db.queue ++ [item] ∧
    item = { id := newId
             sessionId := sid
             songId := songId
             songName := songName
             artistName := artistName
             imageUrl := img
             duration := dur
             addedBy := uid
             position := lastQueuePos db sid + 1
             played := false
             addedAt := now } := by
  unfold addToQueue at h
  repeat' split at h
  all_goals first
    | (injection h with h2
       obtain ⟨hdb, hitem⟩ := Prod.mk.inj h2
       subst hitem
       rw [← hdb]
       exact ⟨rfl, rfl, rfl, rfl, rfl⟩)
    | exact absurd h (by simp)

/-- Claim C5 (confirmed): on a session with no unplayed queue row, a
successful enqueue followed by a permitted advance puts the session in
the Playing state with exactly the enqueued track at position zero, and
the enqueued row is marked played. -/
theorem C5_enqueue_then_advance (db db1 : DB) (sid a1 a2 : Nat)
    (s : Session) (item : QueueItem)
    (songId songName artistName : Nat) (img dur : Option Nat)
    (newId t1 t2 : Nat)
    (hs : findSession db sid = some s)
    (hempty : db.queue.filter (fun q => q.sessionId == sid && !q.played)
      = [])
    (henq : addToQueue db sid a1 songId songName artistName img dur newId t1
      = .ok (db1, item))
    (hperm : advanceGuard db1 s a2 = true) :
    ∃ db2, playNext db1 sid a2 t2 = .ok (db2, some item) ∧
      item.songId = songId ∧ item.played = false ∧
      findSession db2 sid = some { s with
        currentSongId := some songId
        currentSongName := some songName
        currentArtistName := some artistName
        currentImageUrl := img
        isPlaying := true
        currentPosition := 0
        lastUpdated := t2 } ∧
      (∀ q ∈ db2.queue, q.id = newId → q.played = true) := by
  obtain ⟨hsess, hparts, hinvs, hq, hitem⟩ :=
    addToQueue_ok db db1 sid a1 songId songName artistName img dur newId t1
      item henq
  have hfind1 : findSession db1 sid = some s := by
    unfold findSession
    rw [hsess]
    exact hs
  have hnext : nextUnplayed db1 sid = some item := by
    unfold nextUnplayed
    rw [hq, List.filter_append, hempty]
    have : [item].filter (fun q => q.sessionId == sid && !q.played)
        = [item] := by
      rw [hitem]
      simp
    rw [this]
    rfl
  have hsid : (s.id == sid) = true := by
    simpa using List.find?_some hs
  have hplay : playNext db1 sid a2 t2 = .ok ({ db1 with
      sessions := db1.sessions.map (fun t =>
        if t.id == sid then
          { t with
            currentSongId := some item.songId
            currentSongName := some item.songName
            currentArtistName := some item.artistName
            currentImageUrl := item.imageUrl
            isPlaying := true
            currentPosition := 0
            lastUpdated := t2 }
        else t)
      queue := db1.queue.map (fun q =>
        if q.id == item.id then { q with played := true } else q) },
      some item) := by
    unfold playNext
    rw [hfind1]
    simp only []
    rw [if_pos hperm, hnext]
  refine ⟨_, hplay, ?_, ?_, ?_, ?_⟩
  · rw [hitem]
  · rw [hitem]
  · unfold findSession
    simp only []
    rw [hsess]
    rw [find?_map_of_key _ _ _ (fun x => by
      by_cases hx : (x.id == sid) = true
      · rw [if_pos hx]
      · rw [if_neg hx])]
    unfold findSession at hs
    rw [hs]
    simp only [Option.map_some']
    rw [if_pos hsid, hitem]
  · intro q hq2 hqid
    simp only [] at hq2
    rcases List.mem_map.mp hq2 with ⟨y, hy, hyq⟩
    by_cases hc : (y.id == item.id) = true
    · rw [if_pos hc] at hyq
      subst hyq
      rfl
    · rw [if_neg hc] at hyq
      subst hyq
      have : item.id = newId := by rw [hitem]
      exact absurd (by simp [hqid, this]) hc

/-- The exC1db store after the creator enqueues track nine. -/
def exC5db1 : DB :=
  { sessions := [mkSession 1 1 2 true QMode.collaborative]
    participants := []
    queue := [mkItem 2 1 9 1 1 false]
    invitations := [] }

/-- Witness instantiating C5: enqueue by the creator on an empty queue,
then advance by a guest (guest control is on in exC1db). -/
theorem C5_enqueue_then_advance_witness :
    ∃ db2, playNext exC5db1 1 2 3 = .ok (db2, some (mkItem 2 1 9 1 1 false)) ∧
      (mkItem 2 1 9 1 1 false).songId = 9 ∧
      (mkItem 2 1 9 1 1 false).played = false ∧
      findSession db2 1 = some { mkSession 1 1 2 true QMode.collaborative with
        currentSongId := some 9
        currentSongName := some 9
        currentArtistName := some 9
        currentImageUrl := none
        isPlaying := true
        currentPosition := 0
        lastUpdated := 3 } ∧
      (∀ q ∈ db2.queue, q.id = 2 → q.played = true) :=
  C5_enqueue_then_advance exC1db exC5db1 1 1 2
    (mkSession 1 1 2 true QMode.collaborative) (mkItem 2 1 9 1 1 false)
    9 9 9 none none 2 0 3 rfl rfl rfl rfl

/-- participantActive reads only the participants table. -/
theorem participantActive_congr (d d' : DB) (sid u : Nat)
    (h : d.participants = d'.participants) :
    participantActive d sid u = participantActive d' sid u := by
  unfold participantActive findParticipant
  rw [h]

/-- One invite step either skips the target or appends exactly one
pending invitation by the inviter for this session. -/
theorem inviteStep_cases (sid inviter now : Nat)
    (acc : DB × List Invitation × Nat) (u : Nat) :
    inviteStep sid inviter now acc u = acc ∨
    inviteStep sid inviter now acc u
      = ({ acc.1 with invitations := acc.1.invitations
            ++ [⟨acc.2.2, sid, u, inviter, InvStatus.pending, now⟩] },
         acc.2.1 ++ [⟨acc.2.2, sid, u, inviter, InvStatus.pending, now⟩],
         acc.2.2 + 1) := by
  unfold inviteStep
  by_cases h1 : participantActive acc.1 sid u = true
  · rw [if_pos h1]
    exact Or.inl rfl
  · rw [if_neg h1]
    by_cases h2 : (acc.1.invitations.find? (fun i => i.sessionId == sid &&
        i.invitedUserId == u && decide (i.status = InvStatus.pending))).isSome
        = true
    · rw [if_pos h2]
      exact Or.inl rfl
    · rw [if_neg h2]
      exact Or.inr rfl

/-- The invite fold only appends pending invitations of this session by
this inviter; the other three tables never change. -/
theorem inviteFold_frame (sid inviter now : Nat) (l : List Nat)
    (acc : DB × List Invitation × Nat) :
    ∃ new : List Invitation,
      (l.foldl (inviteStep sid inviter now) acc).1.invitations
        = acc.1.invitations ++ new ∧
      (∀ i ∈ new, i.sessionId = sid ∧ i.invitedBy = inviter ∧
        i.status = InvStatus.pending) ∧
      (l.foldl (inviteStep sid inviter now) acc).1.participants
        = acc.1.participants ∧
      (l.foldl (inviteStep sid inviter now) acc).1.sessions
        = acc.1.sessions ∧
      (l.foldl (inviteStep sid inviter now) acc).1.queue = acc.1.queue := by
  induction l generalizing acc with
  | nil => exact ⟨[], by simp, by simp, rfl, rfl, rfl⟩
  | cons v t ih =>
    simp only [List.foldl_cons]
    rcases inviteStep_cases sid inviter now acc v with hc | hc
    · rw [hc]
      exact ih acc
    · rw [hc]
      obtain ⟨new, hinv, hgood, hp, hs2, hq⟩ :=
        ih ({ acc.1 with invitations := acc.1.invitations
              ++ [⟨acc.2.2, sid, v, inviter, InvStatus.pending, now⟩] },
            acc.2.1 ++ [⟨acc.2.2, sid, v, inviter, InvStatus.pending, now⟩],
            acc.2.2 + 1)
      refine ⟨⟨acc.2.2, sid, v, inviter, InvStatus.pending, now⟩ :: new,
        ?_, ?_, ?_, ?_, ?_⟩
      · rw [hinv]
        simp
      · intro i hi
        rcases List.mem_cons.mp hi with rfl | hi2
        · exact ⟨rfl, rfl, rfl⟩
        · exact hgood i hi2
      · rw [hp]
      · rw [hs2]
      · rw [hq]

/-- Skip equation of the invite step when the target is already an
active participant. -/
theorem inviteStep_skip_active (sid inviter now : Nat)
    (acc : DB × List Invitation × Nat) (u : Nat)
    (h : participantActive acc.1 sid u = true) :
    inviteStep sid inviter now acc u = acc := by
  unfold inviteStep
  rw [if_pos h]

/-- Skip equation of the invite step when a pending invitation already
exists. -/
theorem inviteStep_skip_pending (sid inviter now : Nat)
    (acc : DB × List Invitation × Nat) (u : Nat)
    (h1 : participantActive acc.1 sid u = false)
    (h2 : (acc.1.invitations.find? (fun i => i.sessionId == sid &&
      i.invitedUserId == u && decide (i.status = InvStatus.pending))).isSome
        = true) :
    inviteStep sid inviter now acc u = acc := by
  unfold inviteStep
  rw [if_neg (by simp [h1]), if_pos h2]

/-- Creation equation of the invite step. -/
theorem inviteStep_creates (sid inviter now : Nat)
    (acc : DB × List Invitation × Nat) (u : Nat)
    (h1 : participantActive acc.1 sid u = false)
    (h2 : (acc.1.invitations.find? (fun i => i.sessionId == sid &&
      i.invitedUserId == u && decide (i.status = InvStatus.pending))).isSome
        = false) :
    inviteStep sid inviter now acc u
      = ({ acc.1 with invitations := acc.1.invitations
            ++ [⟨acc.2.2, sid, u, inviter, InvStatus.pending, now⟩] },
         acc.2.1 ++ [⟨acc.2.2, sid, u, inviter, InvStatus.pending, now⟩],
         acc.2.2 + 1) := by
  unfold inviteStep
  rw [if_neg (by simp [h1]), if_neg (by simp [h2])]

/-- Every target of the invite fold that is not an active participant
and has no pending invitation in the starting store ends up covered by
a pending invitation of the session in the folded store. -/
theorem inviteFold_mem (db0 : DB) (sid inviter now : Nat) (l : List Nat)
    (acc : DB × List Invitation × Nat)
    (hpart : acc.1.participants = db0.participants)
    (hinv : ∃ new, acc.1.invitations = db0.invitations ++ new ∧
      ∀ i ∈ new, i.sessionId = sid ∧ i.invitedBy = inviter ∧
        i.status = InvStatus.pending)
    (u : Nat) (hu : u ∈ l)
    (hnp : participantActive db0 sid u = false)
    (hpd : db0.invitations.find? (fun i => i.sessionId == sid &&
      i.invitedUserId == u && decide (i.status = InvStatus.pending))
        = none) :
    ∃ i ∈ (l.foldl (inviteStep sid inviter now) acc).1.invitations,
      i.sessionId = sid ∧ i.invitedUserId = u ∧ i.invitedBy = inviter ∧
      i.status = InvStatus.pending := by
  revert hu
  induction l generalizing acc with
  | nil =>
    intro hu
    cases hu
  | cons v t ih =>
    intro hu
    simp only [List.foldl_cons]
    rcases List.mem_cons.mp hu with rfl | hu2
    · obtain ⟨new0, hacc, hgood0⟩ := hinv
      by_cases h1 : participantActive acc.1 sid u = true
      · rw [participantActive_congr acc.1 db0 sid u hpart, hnp] at h1
        cases h1
      · rw [Bool.not_eq_true] at h1
        by_cases h2 : (acc.1.invitations.find? (fun i =>
            i.sessionId == sid && i.invitedUserId == u &&
            decide (i.status = InvStatus.pending))).isSome = true
        · obtain ⟨i, hfind⟩ := Option.isSome_iff_exists.mp h2
          have hmem := List.mem_of_find?_eq_some hfind
          have hpred := List.find?_some hfind
          simp only [Bool.and_eq_true, beq_iff_eq, decide_eq_true_eq]
            at hpred
          have hinew : i ∈ new0 := by
            rw [hacc] at hmem
            rcases List.mem_append.mp hmem with hmem0 | hmemn
            · exfalso
              have hno := List.find?_eq_none.mp hpd i hmem0
              simp only [Bool.and_eq_true, beq_iff_eq,
                decide_eq_true_eq] at hno
              exact hno ⟨⟨hpred.1.1, hpred.1.2⟩, hpred.2⟩
            · exact hmemn
          obtain ⟨hgs, hgb, hgst⟩ := hgood0 i hinew
          rw [inviteStep_skip_pending sid inviter now acc u h1 h2]
          obtain ⟨new2, hfin, hg2, hp2, hs2, hq2⟩ :=
            inviteFold_frame sid inviter now t acc
          refine ⟨i, ?_, hgs, hpred.1.2, hgb, hgst⟩
          rw [hfin]
          exact List.mem_append.mpr (Or.inl hmem)
        · rw [Bool.not_eq_true] at h2
          rw [inviteStep_creates sid inviter now acc u h1 h2]
          obtain ⟨new2, hfin, hg2, hp2, hs2, hq2⟩ :=
            inviteFold_frame sid inviter now t
              ({ acc.1 with invitations := acc.1.invitations
                  ++ [⟨acc.2.2, sid, u, inviter, InvStatus.pending, now⟩] },
               acc.2.1 ++ [⟨acc.2.2, sid, u, inviter, InvStatus.pending, now⟩],
               acc.2.2 + 1)
          refine ⟨⟨acc.2.2, sid, u, inviter, InvStatus.pending, now⟩, ?_,
            rfl, rfl, rfl, rfl⟩
          rw [hfin]
          refine List.mem_append.mpr (Or.inl ?_)
          simp
    · rcases inviteStep_cases sid inviter now acc v with hc | hc
      · rw [hc]
        exact ih acc hpart hinv hu2
      · rw [hc]
        refine ih _ ?_ ?_ hu2
        · simpa using hpart
        · obtain ⟨new0, hacc, hgood0⟩ := hinv
          refine ⟨new0 ++ [⟨acc.2.2, sid, v, inviter, InvStatus.pending, now⟩],
            ?_, ?_⟩
          · simp only []
            rw [hacc, List.append_assoc]
          · intro i hi
            rcases List.mem_append.mp hi with hi0 | hi1
            · exact hgood0 i hi0
            · rw [List.mem_singleton] at hi1
              subst hi1
              exact ⟨rfl, rfl, rfl⟩

/-- Claim C10 (confirmed): for an active session with room for the
whole batch, the invite route succeeds for every authenticated inviter
whatsoever: no hypothesis about the inviter being the creator or a
participant is needed.  It creates a pending invitation for each target
that is not an active participant and has no pending invitation, and it
touches no table other than the invitations. -/
theorem C10_invite_no_inviter_check (db : DB) (sid inviter nextId now : Nat)
    (targets : List Nat) (s : Session)
    (hs : findSession db sid = some s) (hact : s.isActive = true)
    (hspots : (targets.length : Int)
      ≤ (s.maxMembers : Int) - (countActive db sid : Int)) :
    ∃ db' created,
      sendInvitations db sid inviter targets nextId now
        = .ok (db', created) ∧
      db'.participants = db.participants ∧
      db'.sessions = db.sessions ∧
      db'.queue = db.queue ∧
      (∀ u ∈ targets, participantActive db sid u = false →
        db.invitations.find? (fun i => i.sessionId == sid &&
          i.invitedUserId == u
          && decide (i.status = InvStatus.pending)) = none →
        ∃ i ∈ db'.invitations, i.sessionId = sid ∧ i.invitedUserId = u ∧
          i.invitedBy = inviter ∧ i.status = InvStatus.pending) := by
  have hok : sendInvitations db sid inviter targets nextId now
      = .ok ((targets.foldl (inviteStep sid inviter now)
              (db, [], nextId)).1,
             (targets.foldl (inviteStep sid inviter now)
              (db, [], nextId)).2.1) := by
    unfold sendInvitations
    rw [hs]
    simp only []
    rw [if_pos hact, if_neg (Int.not_lt.mpr hspots)]
  obtain ⟨new2, hfin, hg2, hp2, hs2, hq2⟩ :=
    inviteFold_frame sid inviter now targets (db, [], nextId)
  refine ⟨_, _, hok, hp2, hs2, hq2, ?_⟩
  intro u hu hnp hpd
  exact inviteFold_mem db sid inviter now targets (db, [], nextId) rfl
    ⟨[], by simp, by simp⟩ u hu hnp hpd

/-- Witness instantiating C10: user 42 is neither the creator nor any
kind of participant of the exC1db session and still invites user 5. -/
theorem C10_invite_no_inviter_check_witness :
    ∃ db' created,
      sendInvitations exC1db 1 42 [5] 1 0 = .ok (db', created) ∧
      db'.participants = exC1db.participants ∧
      db'.sessions = exC1db.sessions ∧
      db'.queue = exC1db.queue ∧
      (∀ u ∈ [5], participantActive exC1db 1 u = false →
        exC1db.invitations.find? (fun i => i.sessionId == 1 &&
          i.invitedUserId == u
          && decide (i.status = InvStatus.pending)) = none →
        ∃ i ∈ db'.invitations, i.sessionId = 1 ∧ i.invitedUserId = u ∧
          i.invitedBy = 42 ∧ i.status = InvStatus.pending) :=
  C10_invite_no_inviter_check exC1db 1 42 1 0 [5]
    (mkSession 1 1 2 true QMode.collaborative) rfl rfl (by decide)

/-- countActive reads only the participants table. -/
theorem countActive_congr (db db' : DB)
    (h : db'.participants = db.participants) (sid : Nat) :
    countActive db' sid = countActive db sid := by
  unfold countActive
  rw [h]

/-- Active rows are a sub-count of all rows of the session. -/
theorem countActive_le_countAllRows (db : DB) (sid : Nat) :
    countActive db sid ≤ countAllRows db sid := by
  unfold countActive countAllRows
  refine List.countP_mono_left ?_
  intro x hx hpx
  simp only [Bool.and_eq_true] at hpx
  exact hpx.1

/-- Well-formedness only depends on the sessions and participants
tables. -/
theorem WF_of_tables (db db' : DB) (hsse : db'.sessions = db.sessions)
    (hp : db'.participants = db.participants) (h : WF db) : WF db' := by
  obtain ⟨h1, h2, h3⟩ := h
  refine ⟨?_, ?_, ?_⟩
  · unfold uniqueSessions at *
    rw [hsse]
    exact h1
  · unfold uniqueParticipants at *
    rw [hp]
    exact h2
  · unfold sessionCapacityInv at *
    intro s2 hs2
    rw [hsse] at hs2
    rw [countActive_congr db db' hp]
    exact h3 s2 hs2

/-- A map that preserves the composite participant key preserves
key-pairwise-distinctness. -/
theorem pairwise_keys_map (l : List Participant)
    (f : Participant → Participant)
    (hf : ∀ x, (f x).sessionId = x.sessionId ∧ (f x).userId = x.userId)
    (h : l.Pairwise (fun a b =>
      a.sessionId ≠ b.sessionId ∨ a.userId ≠ b.userId)) :
    (l.map f).Pairwise (fun a b =>
      a.sessionId ≠ b.sessionId ∨ a.userId ≠ b.userId) := by
  rw [List.pairwise_map]
  refine h.imp ?_
  intro a b hd
  rcases hd with hd | hd
  · exact Or.inl (by rw [(hf a).1, (hf b).1]; exact hd)
  · exact Or.inr (by rw [(hf a).2, (hf b).2]; exact hd)

/-- A map that preserves the session id preserves
id-pairwise-distinctness. -/
theorem pairwise_ids_map (l : List Session) (f : Session → Session)
    (hf : ∀ x, (f x).id = x.id)
    (h : l.Pairwise (fun a b => a.id ≠ b.id)) :
    (l.map f).Pairwise (fun a b => a.id ≠ b.id) := by
  rw [List.pairwise_map]
  refine h.imp ?_
  intro a b hd
  rw [hf a, hf b]
  exact hd

/-- With unique session ids, any session of the table carrying the
looked-up id is the looked-up row. -/
theorem findSession_unique (db : DB) (sid : Nat) (s : Session)
    (hu : uniqueSessions db) (hs : findSession db sid = some s) :
    ∀ s2 ∈ db.sessions, s2.id = sid → s2 = s := by
  intro s2 h2 hid
  have hs' : db.sessions.find? (fun x => x.id == sid) = some s := hs
  have hmem := List.mem_of_find?_eq_some hs'
  have hpred := List.find?_some hs'
  have hsid : s.id = sid := by simpa using hpred
  exact mem_eq_of_pairwise_ne (f := Session.id) hu h2 hmem
    (by rw [hid, hsid])

/-- With the composite unique key, at most one participant row matches
a concrete (session, user) pair. -/
theorem countP_key_le_one (db : DB) (sid uid : Nat)
    (hu : uniqueParticipants db) :
    db.participants.countP
      (fun p => p.sessionId == sid && p.userId == uid) ≤ 1 := by
  refine countP_le_one_of_pairwise hu _ ?_
  intro a b ha hb hr
  simp only [Bool.and_eq_true, beq_iff_eq] at ha hb
  rcases hr with hr | hr
  · exact hr (ha.1.trans hb.1.symm)
  · exact hr (ha.2.trans hb.2.symm)

/-- Reactivation does not change the active count of other sessions. -/
theorem reactivate_countActive_other (db : DB) (sid uid now sid2 : Nat)
    (hne : sid2 ≠ sid) :
    countActive (reactivateParticipant db sid uid now) sid2
      = countActive db sid2 := by
  unfold countActive reactivateParticipant
  simp only []
  refine countP_map_eq_of _ _ _ ?_
  intro x hx
  by_cases hc : (x.sessionId == sid && x.userId == uid) = true
  · rw [if_pos hc]
    have hxs : x.sessionId = sid := by
      simp only [Bool.and_eq_true, beq_iff_eq] at hc
      exact hc.1
    have hne2 : (x.sessionId == sid2) = false := by
      simp [hxs]
      exact fun hcon => hne hcon.symm
    simp [hne2]
  · rw [if_neg hc]

/-- Reactivation raises the active count of its session by at most
one. -/
theorem reactivate_countActive_le (db : DB) (sid uid now : Nat)
    (hu : uniqueParticipants db) :
    countActive (reactivateParticipant db sid uid now) sid
      ≤ countActive db sid + 1 := by
  unfold countActive reactivateParticipant
  simp only []
  have hb := countP_map_le_add db.participants
    (fun p => if p.sessionId == sid && p.userId == uid then
      { p with isActive := true, joinedAt := now, leftAt := none } else p)
    (fun p => p.sessionId == sid && p.isActive)
    (fun p => p.sessionId == sid && p.userId == uid)
    (by
      intro x hx hpx
      try simp only [] at hpx
      by_cases hc : (x.sessionId == sid && x.userId == uid) = true
      · exact Or.inr hc
      · rw [if_neg hc] at hpx
        exact Or.inl hpx)
  have h1 := countP_key_le_one db sid uid hu
  unfold countActive at *
  omega

/-- Adding a participant row does not change the active count of other
sessions. -/
theorem addParticipant_countActive_other (db : DB) (sid uid : Nat)
    (r : Role) (now sid2 : Nat) (hne : sid2 ≠ sid) :
    countActive (addParticipant db sid uid r now) sid2
      = countActive db sid2 := by
  unfold countActive addParticipant
  simp only []
  rw [List.countP_append]
  have : (sid == sid2) = false := by
    simp
    exact fun hcon => hne hcon.symm
  simp [List.countP_cons, this]

/-- Adding a participant row raises the active count of its session by
exactly one. -/
theorem addParticipant_countActive_same (db : DB) (sid uid : Nat)
    (r : Role) (now : Nat) :
    countActive (addParticipant db sid uid r now) sid
      = countActive db sid + 1 := by
  unfold countActive addParticipant
  simp only []
  rw [List.countP_append]
  simp [List.countP_cons]

/-- Reactivation preserves well-formedness when the target session was
found with strictly fewer active rows than capacity. -/
theorem reactivate_preserves (db : DB) (sid uid now : Nat) (s : Session)
    (hwf : WF db) (hs : findSession db sid = some s)
    (hroom : countActive db sid < s.maxMembers) :
    WF (reactivateParticipant db sid uid now) := by
  obtain ⟨hus, hup, hcap⟩ := hwf
  refine ⟨hus, ?_, ?_⟩
  · unfold uniqueParticipants at *
    unfold reactivateParticipant
    simp only []
    refine pairwise_keys_map _ _ ?_ hup
    intro x
    by_cases hc : (x.sessionId == sid && x.userId == uid) = true
    · rw [if_pos hc]
      exact ⟨rfl, rfl⟩
    · rw [if_neg hc]
      exact ⟨rfl, rfl⟩
  · unfold sessionCapacityInv at *
    intro s2 hs2
    have hs2m : s2 ∈ db.sessions := hs2
    by_cases hid : s2.id = sid
    · have hss : s2 = s := findSession_unique db sid s hus hs s2 hs2m hid
      subst hss
      rw [hid]
      calc countActive (reactivateParticipant db sid uid now) sid
          ≤ countActive db sid + 1 :=
            reactivate_countActive_le db sid uid now hup
        _ ≤ s2.maxMembers := by omega
    · rw [reactivate_countActive_other db sid uid now s2.id hid]
      exact hcap s2 hs2m

/-- Adding a fresh participant row preserves well-formedness when the
target session was found with strictly fewer active rows than
capacity and no row for the pair exists. -/
theorem addParticipant_preserves (db : DB) (sid uid : Nat) (r : Role)
    (now : Nat) (s : Session) (hwf : WF db)
    (hs : findSession db sid = some s)
    (hroom : countActive db sid < s.maxMembers)
    (hnone : findParticipant db sid uid = none) :
    WF (addParticipant db sid uid r now) := by
  obtain ⟨hus, hup, hcap⟩ := hwf
  refine ⟨hus, ?_, ?_⟩
  · unfold uniqueParticipants at *
    unfold addParticipant
    simp only []
    rw [List.pairwise_append]
    refine ⟨hup, List.pairwise_singleton _ _, ?_⟩
    intro a ha b hb
    rw [List.mem_singleton] at hb
    subst hb
    have hno : ¬(a.sessionId == sid && a.userId == uid) = true := by
      have := List.find?_eq_none.mp hnone a ha
      simpa using this
    simp only [Bool.and_eq_true, beq_iff_eq, not_and] at hno
    by_cases h1 : a.sessionId = sid
    · exact Or.inr (by simpa using hno h1)
    · exact Or.inl (by simpa using h1)
  · unfold sessionCapacityInv at *
    intro s2 hs2
    have hs2m : s2 ∈ db.sessions := hs2
    by_cases hid : s2.id = sid
    · have hss : s2 = s := findSession_unique db sid s hus hs s2 hs2m hid
      subst hss
      rw [hid, addParticipant_countActive_same]
      omega
    · rw [addParticipant_countActive_other db sid uid r now s2.id hid]
      exact hcap s2 hs2m

/-- join preserves well-formedness. -/
theorem joinSession_preserves (db db' : DB) (sid uid now : Nat)
    (hwf : WF db) (h : joinSession db sid uid now = .ok db') : WF db' := by
  unfold joinSession at h
  split at h
  · exact absurd h (by simp)
  next s heqs =>
    split at h
    swap
    · exact absurd h (by simp)
    split at h
    · exact absurd h (by simp)
    next hfull =>
      have hroom : countAllRows db sid < s.maxMembers := by omega
      have hroom2 : countActive db sid < s.maxMembers :=
        lt_of_le_of_lt (countActive_le_countAllRows db sid) hroom
      split at h
      next p heqp =>
        split at h
        · exact absurd h (by simp)
        · simp only [Except.ok.injEq] at h
          rw [← h]
          exact reactivate_preserves db sid uid now s hwf heqs hroom2
      next heqp =>
        simp only [Except.ok.injEq] at h
        rw [← h]
        exact addParticipant_preserves db sid uid _ now s hwf heqs hroom2
          heqp

/-- leave preserves well-formedness. -/
theorem leaveSession_preserves (db db' : DB) (sid uid now : Nat)
    (hwf : WF db) (h : leaveSession db sid uid now = .ok db') : WF db' := by
  obtain ⟨hus, hup, hcap⟩ := hwf
  unfold leaveSession at h
  split at h
  · exact absurd h (by simp)
  next p heqp =>
    split at h
    swap
    · exact absurd h (by simp)
    simp only [Except.ok.injEq] at h
    rw [← h]
    refine ⟨hus, ?_, ?_⟩
    · unfold uniqueParticipants at *
      simp only []
      refine pairwise_keys_map _ _ ?_ hup
      intro x
      by_cases hc : (x.sessionId == sid && x.userId == uid) = true
      · rw [if_pos hc]
        exact ⟨rfl, rfl⟩
      · rw [if_neg hc]
        exact ⟨rfl, rfl⟩
    · unfold sessionCapacityInv at *
      intro s2 hs2
      refine le_trans ?_ (hcap s2 hs2)
      unfold countActive
      simp only []
      refine countP_map_le_of _ _ _ ?_
      intro x hx hpx
      by_cases hc : (x.sessionId == sid && x.userId == uid) = true
      · rw [if_pos hc] at hpx
        simp at hpx
      · rw [if_neg hc] at hpx
        exact hpx

/-- end preserves well-formedness. -/
theorem endSession_preserves (db db' : DB) (sid uid now : Nat)
    (hwf : WF db) (h : endSession db sid uid now = .ok db') : WF db' := by
  obtain ⟨hus, hup, hcap⟩ := hwf
  unfold endSession at h
  split at h
  · exact absurd h (by simp)
  next s heqs =>
    split at h
    swap
    · exact absurd h (by simp)
    simp only [Except.ok.injEq] at h
    rw [← h]
    refine ⟨?_, ?_, ?_⟩
    · unfold uniqueSessions at *
      simp only []
      refine pairwise_ids_map _ _ ?_ hus
      intro x
      by_cases hc : (x.id == sid) = true
      · rw [if_pos hc]
      · rw [if_neg hc]
    · unfold uniqueParticipants at *
      simp only []
      refine pairwise_keys_map _ _ ?_ hup
      intro x
      by_cases hc : (x.sessionId == sid) = true
      · rw [if_pos hc]
        exact ⟨rfl, rfl⟩
      · rw [if_neg hc]
        exact ⟨rfl, rfl⟩
    · unfold sessionCapacityInv at *
      intro s2 hs2
      simp only [] at hs2
      rcases List.mem_map.mp hs2 with ⟨t, ht, hts⟩
      have hmax : s2.maxMembers = t.maxMembers := by
        rw [← hts]
        by_cases hc : (t.id == sid) = true
        · rw [if_pos hc]
        · rw [if_neg hc]
      have hid2 : s2.id = t.id := by
        rw [← hts]
        by_cases hc : (t.id == sid) = true
        · rw [if_pos hc]
        · rw [if_neg hc]
      rw [hmax, hid2]
      refine le_trans ?_ (hcap t ht)
      unfold countActive
      simp only []
      refine countP_map_le_of _ _ _ ?_
      intro x hx hpx
      by_cases hc : (x.sessionId == sid) = true
      · rw [if_pos hc] at hpx
        simp at hpx
      · rw [if_neg hc] at hpx
        exact hpx

/-- create preserves well-formedness, given the freshness of the
autoincrement id and the foreign-key fact that no participant row names
it. -/
theorem createSession_preserves (db db' : DB) (uid newId now name : Nat)
    (descr : Option Nat) (pub : Bool) (cap : Nat) (guest : Bool)
    (qm : QMode)
    (hfresh : ∀ s ∈ db.sessions, s.id ≠ newId)
    (hfk : ∀ p ∈ db.participants, p.sessionId ≠ newId)
    (hwf : WF db)
    (h : createSession db uid newId now name descr pub cap guest qm
      = .ok db') :
    WF db' := by
  obtain ⟨hus, hup, hcap⟩ := hwf
  unfold createSession at h
  split at h
  · exact absurd h (by simp)
  simp only [Except.ok.injEq] at h
  rw [← h]
  refine ⟨?_, hup, ?_⟩
  · unfold uniqueSessions at *
    simp only []
    rw [List.pairwise_append]
    refine ⟨hus, List.pairwise_singleton _ _, ?_⟩
    intro a ha b hb
    rw [List.mem_singleton] at hb
    subst hb
    exact hfresh a ha
  · unfold sessionCapacityInv at *
    intro s2 hs2
    simp only [] at hs2
    rcases List.mem_append.mp hs2 with hs2 | hs2
    · exact hcap s2 hs2
    · rw [List.mem_singleton] at hs2
      subst hs2
      show db.participants.countP
        (fun p => p.sessionId == newId && p.isActive) ≤ cap
      have hz : db.participants.countP
          (fun p => p.sessionId == newId && p.isActive) = 0 := by
        refine List.countP_eq_zero.mpr ?_
        intro x hx
        simp only [Bool.and_eq_true, beq_iff_eq, not_and]
        intro hcon
        exact absurd hcon (hfk x hx)
      rw [hz]
      exact Nat.zero_le cap

/-- invite preserves well-formedness: it only appends invitations. -/
theorem sendInvitations_preserves (db db' : DB)
    (sid inviter nextId now : Nat) (userIds : List Nat)
    (created : List Invitation) (hwf : WF db)
    (h : sendInvitations db sid inviter userIds nextId now
      = .ok (db', created)) :
    WF db' := by
  unfold sendInvitations at h
  repeat' split at h
  all_goals first
    | (injection h with h2
       obtain ⟨hdb, hcr⟩ := Prod.mk.inj h2
       obtain ⟨new2, hfin, hg2, hp2, hs2, hq2⟩ :=
         inviteFold_frame sid inviter now userIds (db, [], nextId)
       rw [← hdb]
       exact WF_of_tables db _ hs2 hp2 hwf)
    | exact absurd h (by simp)

/-- accept preserves well-formedness on every path, the error answers
included. -/
theorem acceptInvite_preserves (db : DB) (invId uid now : Nat)
    (hwf : WF db) : WF (acceptInvite db invId uid now).1 := by
  unfold acceptInvite
  split
  · exact hwf
  next inv heqi =>
    split
    swap
    · exact hwf
    split
    swap
    · exact hwf
    split
    · exact hwf
    next s heqs =>
      split
      · exact WF_of_tables db _ rfl rfl hwf
      next hfull =>
        have hroom : countActive db inv.sessionId < s.maxMembers := by
          omega
        split
        next p heqp =>
          split
          · exact WF_of_tables db _ rfl rfl hwf
          · refine WF_of_tables _ _ rfl rfl ?_
            exact reactivate_preserves db inv.sessionId uid now s hwf heqs
              hroom
        next heqp =>
          refine WF_of_tables _ _ rfl rfl ?_
          exact addParticipant_preserves db inv.sessionId uid _ now s hwf
            heqs hroom heqp

/-- decline preserves well-formedness: it only rewrites one invitation
status. -/
theorem declineInvite_preserves (db db' : DB) (invId uid : Nat)
    (hwf : WF db) (h : declineInvite db invId uid = .ok db') : WF db' := by
  unfold declineInvite at h
  split at h
  · exact absurd h (by simp)
  split at h
  · simp only [Except.ok.injEq] at h
    rw [← h]
    exact WF_of_tables db _ rfl rfl hwf
  · exact absurd h (by simp)

/-- Every transition of the settings-free system preserves
well-formedness, hence the capacity invariant. -/
theorem step_preserves_WF (db db' : DB) (hwf : WF db)
    (h : Step false db db') : WF db' := by
  cases h with
  | create hfresh hfk hc =>
    exact createSession_preserves _ _ _ _ _ _ _ _ _ _ _ hfresh hfk hwf hc
  | join hc => exact joinSession_preserves _ _ _ _ _ hwf hc
  | leave hc => exact leaveSession_preserves _ _ _ _ _ hwf hc
  | endS hc => exact endSession_preserves _ _ _ _ _ hwf hc
  | invite hc => exact sendInvitations_preserves _ _ _ _ _ _ _ _ hwf hc
  | accept hc =>
    rw [← hc]
    exact acceptInvite_preserves _ _ _ _ hwf
  | decline hc => exact declineInvite_preserves _ _ _ _ hwf hc

/-- Claim C3 counterexample: the claim quantifies over sequences that
include the settings update.  From the empty store: create a session of
capacity two, let the creator and a second user join, then let the
creator lower maxMembers to one; the reached store has two active
participants against capacity one. -/
theorem C3_counterexample :
    WF emptyDB ∧
    Relation.ReflTransGen (Step true) emptyDB exC3db4 ∧
    ¬ sessionCapacityInv exC3db4 := by
  refine ⟨?_, ?_, ?_⟩
  · exact ⟨List.Pairwise.nil, List.Pairwise.nil,
      fun s hs => absurd hs (List.not_mem_nil s)⟩
  · have s1 : Step true emptyDB exC3db1 :=
      @Step.create true emptyDB exC3db1 1 1 0 1 none true 2 false
        QMode.collaborative (by simp [emptyDB]) (by simp [emptyDB]) rfl
    have s2 : Step true exC3db1 exC3db2 :=
      @Step.join true exC3db1 exC3db2 1 1 0 rfl
    have s3 : Step true exC3db2 exC3db3 :=
      @Step.join true exC3db2 exC3db3 1 2 0 rfl
    have s4 : Step true exC3db3 exC3db4 :=
      @Step.settings exC3db3 exC3db4 1 1 exC3upd rfl
    exact Relation.ReflTransGen.head s1 (Relation.ReflTransGen.head s2
      (Relation.ReflTransGen.head s3 (Relation.ReflTransGen.single s4)))
  · intro hinv
    have := hinv (mkSession 1 1 1 false QMode.collaborative)
      (by simp [exC3db4])
    revert this
    decide

/-- Claim C3 (corrected): with the settings update excluded, every
store reachable from a well-formed store through create, join, leave,
end, invite, accept and decline keeps the count of active participants
of every session within maxMembers.  The settings update breaks the
invariant, as the counterexample shows: it rewrites maxMembers without
comparing it with the current roster. -/
theorem C3_capacity_invariant (db0 db : DB) (hwf : WF db0)
    (h : Relation.ReflTransGen (Step false) db0 db) :
    sessionCapacityInv db := by
  have hWF : WF db := by
    induction h with
    | refl => exact hwf
    | tail hs hstep ih => exact step_preserves_WF _ _ ih hstep
  exact hWF.2.2

/-- Witness instantiating C3 on the settings-free three-step run from
the empty store. -/
theorem C3_capacity_invariant_witness : sessionCapacityInv exC3db3 :=
  C3_capacity_invariant emptyDB exC3db3
    ⟨List.Pairwise.nil, List.Pairwise.nil,
      fun s hs => absurd hs (List.not_mem_nil s)⟩
    (Relation.ReflTransGen.head
      (@Step.create false emptyDB exC3db1 1 1 0 1 none true 2 false
        QMode.collaborative (by simp [emptyDB]) (by simp [emptyDB]) rfl)
      (Relation.ReflTransGen.head
        (@Step.join false exC3db1 exC3db2 1 1 0 rfl)
        (Relation.ReflTransGen.single
          (@Step.join false exC3db2 exC3db3 1 2 0 rfl))))

/-- Witness instantiating C6 at the exC6db store with its accepted
invitation. -/
theorem C6_invitation_terminality_witness :
    ((⟨1, 1, 2, 1, InvStatus.accepted, 0⟩ : Invitation).status
        ≠ InvStatus.pending →
      acceptInvite exC6db 1 2 7 = (exC6db, some Err.alreadyProcessed)) ∧
    declineInvite exC6db 1 2
      = .ok (setInvStatus exC6db 1 InvStatus.declined) ∧
    (∀ i ∈ (setInvStatus exC6db 1 InvStatus.declined).invitations,
      i.id = 1 → i.status = InvStatus.declined) :=
  C6_invitation_terminality exC6db 1 2 7
    ⟨1, 1, 2, 1, InvStatus.accepted, 0⟩ rfl rfl
